import Mathlib

/-!
Verification development for the e-commerce crawler repository.

The Python sources are shallowly embedded below: pure helper functions become
Lean functions over `String`/`List Char`, the BeautifulSoup document is
abstracted into a `Soup` record holding exactly the element/attribute data the
crawler queries, the mutable crawl objects become explicit state records, and
the concurrent worker loop of `Crawler.crawl` becomes a step relation on that
state.  `urllib.parse.urljoin` is treated as an external collaborator and is
passed in as a function parameter wherever the source calls it.
-/

namespace ECC

/-- Python `str.rstrip("/")`: drop every trailing slash. -/
def rstripSlash (s : String) : String :=
  ⟨(s.data.reverse.dropWhile (fun c => c == '/')).reverse⟩

/-- Python `str.lstrip("/")`: drop every leading slash. -/
def lstripSlash (s : String) : String :=
  ⟨s.data.dropWhile (fun c => c == '/')⟩

/-- Python `str.startswith`. -/
def strStarts (s p : String) : Bool :=
  p.data.isPrefixOf s.data

/-- Contiguous-subsequence test on character lists. -/
def listContainsSeq (n : List Char) : List Char → Bool
  | [] => n.isEmpty
  | c :: rest => n.isPrefixOf (c :: rest) || listContainsSeq n rest

/-- Python `needle in hay` on strings. -/
def strContains (hay needle : String) : Bool :=
  listContainsSeq needle.data hay.data

/-- Python `str.lower`, restricted to ASCII as in every string the crawler
compares (`Char.toLower` only maps A-Z). -/
def lowerStr (s : String) : String :=
  ⟨s.data.map Char.toLower⟩

/-! ### The regular-expression fragment used by the crawlers

Every pattern passed to `re.search` in the repository is built from literal
runs, `+`/`*` over a single character class, and an optional `$` anchor, so a
token list with full backtracking (an existential over split points) matches
`re.search` exactly on that fragment. -/

inductive Tok where
  | lit (s : String)
  | plus (p : Char → Bool)
  | star (p : Char → Bool)
  | eos

def matchToks : List Tok → List Char → Bool
  | [], _ => true
  | Tok.lit l :: ts, cs =>
      l.data.isPrefixOf cs && matchToks ts (cs.drop l.data.length)
  | Tok.plus p :: ts, cs =>
      (List.range cs.length).any (fun k =>
        ((cs.take (k + 1)).all p) && matchToks ts (cs.drop (k + 1)))
  | Tok.star p :: ts, cs =>
      (List.range (cs.length + 1)).any (fun k =>
        ((cs.take k).all p) && matchToks ts (cs.drop k))
  | Tok.eos :: ts, cs => cs.isEmpty && matchToks ts cs

/-- `re.search pat s` for the crawler's pattern fragment: some suffix of `s`
starts with a match of `pat`. -/
def reSearch (pat : List Tok) (s : String) : Bool :=
  (List.range (s.data.length + 1)).any (fun i => matchToks pat (s.data.drop i))

/-! ### `urllib.parse` model (the fields the crawler reads) -/

structure UrlParts where
  scheme : String
  netloc : String
  path : String
  query : String
  fragment : String

/-- Split at the first occurrence of `sep`; `none` when `sep` is absent. -/
def splitAtFirst (sep : Char) : List Char → List Char × Option (List Char)
  | [] => ([], none)
  | c :: rest =>
      if c == sep then ([], some rest)
      else
        let r := splitAtFirst sep rest
        (c :: r.1, r.2)

def schemeChar (c : Char) : Bool :=
  c.isAlpha || c.isDigit || c == '+' || c == '-' || c == '.'

def isC0OrSpace (c : Char) : Bool := c.toNat ≤ 32

/-- `urllib.parse.urlparse` restricted to scheme/netloc/path/query/fragment.
CPython's removal of tab/CR/LF and stripping of C0-control-or-space at both
ends is reproduced; the IPv6 bracket validation (which raises) is omitted. -/
def pyUrlparse (url : String) : UrlParts :=
  let cs0 := url.data.filter (fun c => !(c == '\t' || c == '\r' || c == '\n'))
  let cs1 := ((cs0.dropWhile isC0OrSpace).reverse.dropWhile isC0OrSpace).reverse
  let schemeSplit := splitAtFirst ':' cs1
  let hasScheme :=
    match schemeSplit.2, schemeSplit.1 with
    | some _, c :: rest => c.isAlpha && rest.all schemeChar
    | _, _ => false
  let schemeStr : String := if hasScheme then lowerStr ⟨schemeSplit.1⟩ else ""
  let rest1 := if hasScheme then (schemeSplit.2).getD [] else cs1
  let hasNetloc := ("//".data).isPrefixOf rest1
  let netlocCs :=
    if hasNetloc then
      (rest1.drop 2).takeWhile (fun c => !(c == '/' || c == '?' || c == '#'))
    else []
  let rest2 :=
    if hasNetloc then
      (rest1.drop 2).dropWhile (fun c => !(c == '/' || c == '?' || c == '#'))
    else rest1
  let fragSplit := splitAtFirst '#' rest2
  let fragCs := (fragSplit.2).getD []
  let querySplit := splitAtFirst '?' fragSplit.1
  let queryCs := (querySplit.2).getD []
  { scheme := schemeStr, netloc := ⟨netlocCs⟩, path := ⟨querySplit.1⟩,
    query := ⟨queryCs⟩, fragment := ⟨fragCs⟩ }

def hexVal (c : Char) : Option Nat :=
  if c.isDigit then some (c.toNat - 48)
  else if 'a' ≤ c ∧ c ≤ 'f' then some (c.toNat - 87)
  else if 'A' ≤ c ∧ c ≤ 'F' then some (c.toNat - 55)
  else none

/-- `urllib.parse.unquote`, decoding each valid `%XX` escape to the byte's
code point (CPython additionally groups multi-byte UTF-8 escape runs, which
can only differ on non-ASCII results and never on the ASCII parameter names
the classifier compares). -/
def pctDecode : List Char → List Char
  | '%' :: a :: b :: rest =>
      match hexVal a, hexVal b with
      | some ha, some hb => Char.ofNat (16 * ha + hb) :: pctDecode rest
      | _, _ => '%' :: pctDecode (a :: b :: rest)
  | c :: rest => c :: pctDecode rest
  | [] => []

/-- The name transform of `parse_qsl`: `+` to space, then unquote. -/
def unquotePlus (cs : List Char) : String :=
  ⟨pctDecode (cs.map (fun c => if c == '+' then ' ' else c))⟩

/-- Python `str.split` on a single separator character. -/
def splitOnChar (sep : Char) : List Char → List (List Char)
  | [] => [[]]
  | c :: rest =>
      let r := splitOnChar sep rest
      if c == sep then [] :: r
      else
        match r with
        | h :: t => (c :: h) :: t
        | [] => [[c]]

/-- The keys of `urllib.parse.parse_qs(qs)` with default arguments: split on
`&`, keep only `name=value` fields whose value part is nonempty, unquote the
name. -/
def parseQsKeys (qs : String) : List String :=
  if qs = "" then []
  else
    (splitOnChar '&' qs.data).filterMap (fun nv =>
      if nv.isEmpty then none
      else
        match splitAtFirst '=' nv with
        | (_, none) => none
        | (n, some v) => if v.isEmpty then none else some (unquotePlus n))

/-! ### `url_frontier.py` -/

structure URLFrontier where
  queue : List String
  seen : List String

namespace URLFrontier

def empty : URLFrontier := { queue := [], seen := [] }

/-- `URLFrontier.add`: normalize by stripping trailing slashes; enqueue only
if the normalized form was never seen. -/
def add (f : URLFrontier) (url : String) : URLFrontier :=
  let n := rstripSlash url
  if n ∈ f.seen then f
  else { queue := f.queue ++ [n], seen := f.seen ++ [n] }

/-- `URLFrontier.get`: `deque.popleft`, which raises on an empty queue —
modelled as `none`. -/
def get (f : URLFrontier) : Option (String × URLFrontier) :=
  match f.queue with
  | [] => none
  | u :: rest => some (u, { f with queue := rest })

def is_empty (f : URLFrontier) : Bool := f.queue.length == 0

def size (f : URLFrontier) : Nat := f.queue.length

/-- Repeatedly `get` until the frontier is empty, collecting the results. -/
def drain (f : URLFrontier) : List String :=
  match h : f.queue with
  | [] => []
  | u :: rest => u :: drain { f with queue := rest }
termination_by f.queue.length
decreasing_by simp [h]

end URLFrontier

/-! ### The parsed document

`Soup` abstracts the BeautifulSoup tree by the data the crawlers query: for
each element its tag name, raw `class` attribute, `.string`, own `href`,
`data-*` attributes and the first nested anchor; plus the `meta` tags and the
`.string` of the first `application/ld+json` script.  A `class` regex or
lambda in the source is matched per class token by bs4; since every class
literal searched for is space-free, that coincides with a substring test on
the raw attribute value, which is how it is modelled here. -/

structure AnchorInfo where
  href : Option String
  dataProductUrl : Option String

structure Elem where
  name : String
  classAttr : Option String
  str : Option String
  href : Option String
  dataUrl : Option String
  dataHref : Option String
  dataProductUrl : Option String
  innerA : Option AnchorInfo

structure MetaTag where
  property : Option String
  content : Option String

structure Soup where
  ldJson : Option (Option String)
  metaTags : List MetaTag
  elems : List Elem

def emptySoup : Soup := { ldJson := none, metaTags := [], elems := [] }

def mkElem (name : String) : Elem :=
  { name := name, classAttr := none, str := none, href := none,
    dataUrl := none, dataHref := none, dataProductUrl := none, innerA := none }

def nameIn (e : Elem) (names : List String) : Bool := names.contains e.name

def classHasAny (e : Elem) (subs : List String) : Bool :=
  match e.classAttr with
  | some c => subs.any (fun t => strContains (lowerStr c) t)
  | none => false

/-! ### `product_identifier.py` -/

namespace ProductIdentifier

def product_url_patterns : List (List Tok) :=
  [[Tok.lit "/product/"], [Tok.lit "/p/"], [Tok.lit "/item/"],
   [Tok.lit "/products/"], [Tok.lit "/pd/"], [Tok.lit "/buy/"],
   [Tok.lit "/shop/"]]

def product_query_params : List String :=
  ["product", "productId", "pid", "itemId", "sku", "productCode"]

def product_indicators : List String :=
  ["add to cart", "add to bag", "buy now", "product details",
   "product description", "specifications", "shipping", "size chart"]

/-- The URL-path half of `_check_url_pattern`. -/
def check_url_path (url : String) : Bool :=
  product_url_patterns.any (fun p => reSearch p url)

/-- The query-parameter half of `_check_url_pattern`. -/
def check_query_params (url : String) : Bool :=
  let keys := parseQsKeys (pyUrlparse url).query
  product_query_params.any (fun p => keys.contains p)

def check_url_pattern (url : String) : Bool :=
  check_url_path url || check_query_params url

def price_class_terms : List String := ["price", "cost", "mrp", "amount"]

def qty_class_terms : List String := ["qty", "quantity", "size", "option"]

/-- Number of distinct product-indicator phrases in the lowercased markup. -/
def indicatorCount (html : String) : Nat :=
  (product_indicators.filter (fun i => strContains (lowerStr html) i)).length

def check_page_content (html : String) (soup : Soup) : Bool :=
  let cnt := indicatorCount html
  if cnt ≥ 2 then true
  else
    let priceHit := soup.elems.any (fun e =>
      nameIn e ["span", "div", "p"] && classHasAny e price_class_terms)
    if priceHit && cnt > 0 then true
    else
      let qtyHit := soup.elems.any (fun e =>
        nameIn e ["select", "input", "div"] && classHasAny e qty_class_terms)
      if qtyHit && cnt > 0 then true else false

def check_metadata (soup : Soup) : Bool :=
  (match soup.ldJson with
   | some (some s) =>
       strContains s "\"@type\"" &&
         (strContains s "\"Product\"" || strContains (lowerStr s) "\"product\"")
   | _ => false) ||
  (match soup.metaTags.find? (fun m => m.property == some "og:type") with
   | some m => m.content == some "product"
   | none => false) ||
  soup.metaTags.any (fun m =>
    match m.property with
    | some p => strContains p "product:" || strContains p "og:price"
    | none => false)

def is_product_page (url html : String) (soup : Soup) : Bool :=
  if check_url_pattern url then true
  else if check_page_content html soup then true
  else if check_metadata soup then true
  else false

end ProductIdentifier

/-! ### `base_crawler.py`: `Crawler.should_crawl` -/

namespace Crawler

def static_extensions : List String :=
  [".css", ".js", ".jpg", ".jpeg", ".png", ".gif", ".svg"]

def should_crawl (domain url : String) : Bool :=
  let pu := pyUrlparse url
  let pd := pyUrlparse domain
  if pu.netloc ≠ pd.netloc then false
  else if pu.fragment ≠ "" then false
  else if static_extensions.any (fun e => e.data.isSuffixOf url.data) then false
  else true

end Crawler

/-! ### Site-specific URL rules -/

namespace NykaaCrawler

def nykaa_product_patterns : List (List Tok) :=
  [[Tok.lit "/prod/"], [Tok.lit "/products/"], [Tok.lit "productId="],
   [Tok.lit "/p/", Tok.plus Char.isDigit],
   [Tok.lit "/fashion/", Tok.plus (fun c => !(c == '/')), Tok.lit "/p/"],
   [Tok.lit "-p", Tok.plus Char.isDigit, Tok.eos]]

def excluded_paths : List String :=
  ["/login", "/register", "/wishlist", "/cart", "/checkout", "/account",
   "/help", "/policy", "/about", "/terms", "/logout", "/customer-service",
   "/privacy"]

def priority_paths : List String :=
  ["/category/", "/products/", "/fashion/", "/prod/", "/collection/",
   "/brands/"]

/-- `NykaaCrawler.should_crawl`; the `if url = ""` branch models the Python
`not url` guard, which also absorbs a `None` link (see `nykaaAdmit`). -/
def should_crawl (domain url : String) : Bool :=
  if url = "" || !Crawler.should_crawl domain url then false
  else if excluded_paths.any (fun p => strContains url p) then false
  else if priority_paths.any (fun p => strContains url p) then true
  else true

/-- Modelled from the spec: `NykaaCrawler.should_crawl` with the
priority-path loop deleted, the comparison point for the refinement claim
that the loop never affects the returned value. -/
def should_crawl_priority_removed (domain url : String) : Bool :=
  if url = "" || !Crawler.should_crawl domain url then false
  else if excluded_paths.any (fun p => strContains url p) then false
  else true

end NykaaCrawler

namespace TatacliqCrawler

def tatacliq_product_patterns : List (List Tok) :=
  [[Tok.lit "/p-", Tok.plus Char.isDigit], [Tok.lit "pdp/"],
   [Tok.lit "-p-", Tok.plus Char.isDigit], [Tok.lit "/product-details/"]]

def pyWhitespace (c : Char) : Bool :=
  c == ' ' || c == '\t' || c == '\n' || c == '\r' || c.toNat == 11 ||
    c.toNat == 12

def script_patterns : List (List Tok) :=
  [[Tok.lit "\"productId\"", Tok.star pyWhitespace, Tok.lit ":",
    Tok.star pyWhitespace, Tok.lit "\"", Tok.plus (fun c => !(c == '"'))],
   [Tok.lit "\"product\"", Tok.star pyWhitespace, Tok.lit ":",
    Tok.star pyWhitespace, Tok.lit "\x7b"],
   [Tok.lit "productDetails"], [Tok.lit "pdpPageData"]]

def excluded_paths : List String :=
  ["/login", "/register", "/wishlist", "/cart", "/checkout", "/account",
   "/help", "/policy", "/about", "/terms", "/logout", "/customer-service"]

def should_crawl (domain url : String) : Bool :=
  if !Crawler.should_crawl domain url then false
  else if excluded_paths.any (fun p => strContains url p) then false
  else true

def check_product_metadata (soup : Soup) : Bool :=
  soup.metaTags.any (fun m =>
    m.property == some "og:type" && m.content == some "product") ||
  ((soup.elems.filter (fun e =>
      nameIn e ["span", "div"] &&
        (match e.classAttr with
         | some c => strContains (lowerStr c) "price"
         | none => false))).length > 1) ||
  soup.elems.any (fun e =>
    nameIn e ["button", "a"] &&
      (match e.str with
       | some s => strContains (lowerStr s) "add to"
       | none => false))

def check_product_scripts (html : String) : Bool :=
  script_patterns.any (fun p => reSearch p html)

end TatacliqCrawler

namespace WestsideCrawler

def westside_product_patterns : List (List Tok) :=
  [[Tok.lit "/product/"],
   [Tok.lit "/", Tok.plus (fun c => !(c == '/')), Tok.lit "/",
    Tok.plus (fun c => !(c == '/')), Tok.lit "/",
    Tok.plus (fun c => c.isAlpha || c.isDigit || c == '-'), Tok.lit "-",
    Tok.plus Char.isDigit, Tok.lit ".html"],
   [Tok.lit "/", Tok.plus (fun c => !(c == '/')), Tok.lit "/",
    Tok.plus (fun c => !(c == '/')), Tok.lit "/",
    Tok.plus (fun c => !(c == '/')), Tok.lit "?productid="]]

def excluded_paths : List String :=
  ["/login", "/register", "/wishlist", "/checkout", "/search", "/cart",
   "/customer", "/store-locator"]

def should_crawl (domain url : String) : Bool :=
  if !Crawler.should_crawl domain url then false
  else if excluded_paths.any (fun p => strContains url p) then false
  else true

end WestsideCrawler

namespace NykaaCrawler

def card_class_terms : List String :=
  ["product-card", "plp-card", "product-tile", "product-box", "product-item"]

def is_product_page (soup : Soup) (html : String) : Bool :=
  soup.elems.any (fun e =>
    nameIn e ["button", "a"] &&
      (match e.str with
       | some s => strContains (lowerStr s) "add to"
       | none => false)) ||
  ((soup.elems.filter (fun e =>
      nameIn e ["div", "span"] &&
        (match e.classAttr with
         | some c =>
             strContains (lowerStr c) "price" || strContains (lowerStr c) "mrp"
         | none => false))).length > 1) ||
  soup.elems.any (fun e =>
    nameIn e ["div", "ul"] &&
      (match e.classAttr with
       | some c => strContains (lowerStr c) "size"
       | none => false)) ||
  strContains html "itemprop=\"product\"" ||
  strContains html "\"@type\":\"Product\""

end NykaaCrawler

/-! ### Crawl state and `process_url`

`CrawlState` collects the mutable per-run objects of `Crawler.__init__`:
the frontier, `visited_urls`, `product_urls` (both modelled as duplicate-free
lists standing for Python sets) and, for counting dispatches, the sequence of
URLs handed to `process_url`.  A fetch is an external event: `FetchResult`
covers a transport error (`aiohttp.ClientError`), any other raised exception,
and a response with status, body and parsed document. -/

structure CrawlState where
  frontier : URLFrontier
  visited : List String
  products : List String
  processed : List String

/-- Add to a Python set modelled as a list. -/
def pushFresh (l : List String) (u : String) : List String :=
  if u ∈ l then l else l ++ [u]

def stFrontierAdd (s : CrawlState) (u : String) : CrawlState :=
  { s with frontier := s.frontier.add u }

inductive FetchResult where
  | clientError
  | raised
  | ok (status : Nat) (html : String) (soup : Soup)

/-- The shared per-crawler loop `for link in links: if self.should_crawl(link):
self.frontier.add(link)`.  A `none` link models the `None` that
`NykaaCrawler._normalize_url` can return. -/
def enqueueLinks (admission : Option String → Bool) (links : List (Option String))
    (st : CrawlState) : CrawlState :=
  links.foldl (fun s l =>
    if admission l then
      match l with
      | some u => stFrontierAdd s u
      | none => s
    else s) st

namespace Crawler

/-- `Crawler.extract_links`: every anchor with an `href`, skipping empty and
`javascript:` links, resolved through `urljoin` (`uj`). -/
def extract_links (uj : String → String → String) (soup : Soup)
    (base_url : String) : List (Option String) :=
  soup.elems.filterMap (fun e =>
    if e.name == "a" then
      match e.href with
      | some h =>
          if h = "" || strStarts h "javascript:" then none
          else some (some (uj base_url h))
      | none => none
    else none)

def admission (domain : String) : Option String → Bool
  | some u => should_crawl domain u
  | none => false

/-- `Crawler.process_url`.  The `extract`/`linkAdmission` parameters model the
dynamic dispatch of `self.extract_links`/`self.should_crawl`, which
subclasses override. -/
def process_url (extract : Soup → String → List (Option String))
    (linkAdmission : Option String → Bool) (fetch : FetchResult) (url : String)
    (st : CrawlState) : CrawlState :=
  match fetch with
  | FetchResult.clientError => st
  | FetchResult.raised => st
  | FetchResult.ok status html soup =>
      if status ≠ 200 then st
      else
        let st1 :=
          if ProductIdentifier.is_product_page url html soup then
            { st with products := pushFresh st.products url }
          else st
        enqueueLinks linkAdmission (extract soup url) st1

end Crawler

namespace VirgioCrawler

/-- `VirgioCrawler.process_url`: delegate to the base crawler, then add the
URL when it matches `/collection/|/category/` and `-p\d+$`. -/
def process_url (uj : String → String → String) (domain : String)
    (fetch : FetchResult) (url : String) (st : CrawlState) : CrawlState :=
  let st1 := Crawler.process_url (Crawler.extract_links uj)
    (Crawler.admission domain) fetch url st
  if (strContains url "/collection/" || strContains url "/category/") &&
      reSearch [Tok.lit "-p", Tok.plus Char.isDigit, Tok.eos] url then
    { st1 with products := pushFresh st1.products url }
  else st1

end VirgioCrawler

namespace WestsideCrawler

/-- `WestsideCrawler._normalize_url`. -/
def normalize_url (domain _base_url href : String) : String :=
  if strStarts href "//" then "https:" ++ href
  else if strStarts href "/" then rstripSlash domain ++ href
  else if !(strStarts href "http://" || strStarts href "https://") then
    rstripSlash domain ++ "/" ++ lstripSlash href
  else href

/-- The link taken from one Westside product card: the nested anchor's
`href`, with `#` replaced by its `data-product-url` (default empty). -/
def card_link (e : Elem) : Option String :=
  match e.innerA with
  | none => none
  | some ia =>
      match ia.href with
      | none => none
      | some h =>
          if h = "" then none
          else
            let h2 := if h = "#" then (ia.dataProductUrl.getD "") else h
            if h2 = "" then none else some h2

/-- `WestsideCrawler.extract_links`. -/
def extract_links (uj : String → String → String) (domain : String)
    (soup : Soup) (base_url : String) : List (Option String) :=
  Crawler.extract_links uj soup base_url ++
    soup.elems.filterMap (fun e =>
      if e.name == "div" &&
          (match e.classAttr with
           | some c =>
               strContains c "product-item" || strContains c "product-tile"
           | none => false) then
        match card_link e with
        | some h => some (some (normalize_url domain base_url h))
        | none => none
      else none)

def admission (domain : String) : Option String → Bool
  | some u => should_crawl domain u
  | none => false

/-- `WestsideCrawler.process_url`: delegate to the base crawler (with the
overridden extraction/admission), then add the URL on any Westside pattern
match. -/
def process_url (uj : String → String → String) (domain : String)
    (fetch : FetchResult) (url : String) (st : CrawlState) : CrawlState :=
  let st1 := Crawler.process_url (extract_links uj domain) (admission domain)
    fetch url st
  if westside_product_patterns.any (fun p => reSearch p url) then
    { st1 with products := pushFresh st1.products url }
  else st1

end WestsideCrawler

namespace TatacliqCrawler

/-- `TatacliqCrawler._normalize_url` (it resolves against `self.domain`, not
the page URL). -/
def normalize_url (domain _base_url href : String) : String :=
  if strStarts href "//" then "https:" ++ href
  else if strStarts href "/" then rstripSlash domain ++ href
  else if !strStarts href "http" then
    rstripSlash domain ++ "/" ++ lstripSlash href
  else href

/-- The link taken from one TataCliq product card: its own `href`, else the
nested anchor's `href` when the card is a `div`; empty counts as absent. -/
def card_link (e : Elem) : Option String :=
  let own : Option String :=
    match e.href with
    | some h => if h = "" then none else some h
    | none => none
  match own with
  | some h => some h
  | none =>
      if e.name == "div" then
        match e.innerA with
        | some ia =>
            match ia.href with
            | some h => if h = "" then none else some h
            | none => none
        | none => none
      else none

/-- `TatacliqCrawler.extract_links`. -/
def extract_links (uj : String → String → String) (domain : String)
    (soup : Soup) (base_url : String) : List (Option String) :=
  Crawler.extract_links uj soup base_url ++
    soup.elems.filterMap (fun e =>
      if (e.name == "div" || e.name == "a") &&
          (match e.classAttr with
           | some c => strContains (lowerStr c) "product"
           | none => false) then
        match card_link e with
        | some h => some (some (normalize_url domain base_url h))
        | none => none
      else none)

def admission (domain : String) : Option String → Bool
  | some u => should_crawl domain u
  | none => false

/-- `TatacliqCrawler.process_url`: unlike Virgio/Westside it does not call
the base implementation; the generic classifier is replaced by the three
TataCliq checks. -/
def process_url (uj : String → String → String) (domain : String)
    (fetch : FetchResult) (url : String) (st : CrawlState) : CrawlState :=
  match fetch with
  | FetchResult.clientError => st
  | FetchResult.raised => st
  | FetchResult.ok status html soup =>
      if status ≠ 200 then st
      else
        let st1 :=
          if tatacliq_product_patterns.any (fun p => reSearch p url) then
            { st with products := pushFresh st.products url }
          else st
        let st2 :=
          if check_product_metadata soup then
            { st1 with products := pushFresh st1.products url }
          else st1
        let st3 :=
          if check_product_scripts html then
            { st2 with products := pushFresh st2.products url }
          else st2
        enqueueLinks (admission domain) (extract_links uj domain soup url) st3

end TatacliqCrawler

namespace NykaaCrawler

/-- `NykaaCrawler._normalize_url`; returns `none` exactly when `href` is
falsy. -/
def normalize_url (uj : String → String → String) (base_url href : String) :
    Option String :=
  if href = "" then none
  else if strStarts href "//" then some ("https:" ++ href)
  else if strStarts href "/" then
    let pb := pyUrlparse base_url
    some (pb.scheme ++ "://" ++ pb.netloc ++ href)
  else if !strStarts href "http" then some (uj base_url href)
  else some href

/-- The links mined from one Nykaa product card: the nested anchor's `href`
when truthy, then the `data-url`, `data-href` and `data-product-url`
attributes. -/
def card_links (uj : String → String → String) (base_url : String)
    (e : Elem) : List (Option String) :=
  (match e.innerA with
   | some ia =>
       match ia.href with
       | some h => if h = "" then [] else [normalize_url uj base_url h]
       | none => []
   | none => []) ++
  (match e.dataUrl with
   | some h => [normalize_url uj base_url h]
   | none => []) ++
  (match e.dataHref with
   | some h => [normalize_url uj base_url h]
   | none => []) ++
  (match e.dataProductUrl with
   | some h => [normalize_url uj base_url h]
   | none => [])

/-- `NykaaCrawler.extract_links`. -/
def extract_links (uj : String → String → String) (soup : Soup)
    (base_url : String) : List (Option String) :=
  (soup.elems.filter (fun e =>
      nameIn e ["div", "li", "article"] && classHasAny e card_class_terms)).foldl
    (fun acc e => acc ++ card_links uj base_url e)
    (Crawler.extract_links uj soup base_url)

/-- `should_crawl(None)` is `False` through the `not url` guard. -/
def admission (domain : String) : Option String → Bool
  | some u => should_crawl domain u
  | none => false

/-- `NykaaCrawler.process_url`: like TataCliq it replaces the generic
classifier with the Nykaa pattern and content checks. -/
def process_url (uj : String → String → String) (domain : String)
    (fetch : FetchResult) (url : String) (st : CrawlState) : CrawlState :=
  match fetch with
  | FetchResult.clientError => st
  | FetchResult.raised => st
  | FetchResult.ok status html soup =>
      if status ≠ 200 then st
      else
        let st1 :=
          if nykaa_product_patterns.any (fun p => reSearch p url) then
            { st with products := pushFresh st.products url }
          else st
        let st2 :=
          if is_product_page soup html then
            { st1 with products := pushFresh st1.products url }
          else st1
        enqueueLinks (admission domain) (extract_links uj soup url) st2

end NykaaCrawler

/-! ### The worker loop of `Crawler.crawl` as a step relation

asyncio workers interleave only at `await` points, so lines 48-59 of
`base_crawler.py` — emptiness/budget test, `frontier.get`, the visited check
and `visited_urls.add` — run atomically; the effects of `process_url`
(classification and link enqueueing) happen after its awaits and are a
separate step attributable to a previously dispatched URL.  `dispatch`
and `skip` are the two arms of the visited check; `effects` is one batch of
`process_url` mutations, with the fetched page left nondeterministic. -/

def seedState (domain : String) : CrawlState :=
  { frontier := URLFrontier.empty.add domain, visited := [], products := [],
    processed := [] }

inductive Step (maxUrls : Nat) : CrawlState → CrawlState → Prop where
  | dispatch (s : CrawlState) (url : String) (rest : List String)
      (hq : s.frontier.queue = url :: rest)
      (hb : s.visited.length < maxUrls)
      (hv : url ∉ s.visited) :
      Step maxUrls s
        { frontier := { queue := rest, seen := s.frontier.seen },
          visited := s.visited ++ [url],
          products := s.products,
          processed := s.processed ++ [url] }
  | skip (s : CrawlState) (url : String) (rest : List String)
      (hq : s.frontier.queue = url :: rest)
      (hb : s.visited.length < maxUrls)
      (hv : url ∈ s.visited) :
      Step maxUrls s
        { frontier := { queue := rest, seen := s.frontier.seen },
          visited := s.visited,
          products := s.products,
          processed := s.processed }
  | effects (s : CrawlState) (url : String) (addProd : Bool)
      (links : List String)
      (hp : url ∈ s.processed) :
      Step maxUrls s
        { frontier := links.foldl URLFrontier.add s.frontier,
          visited := s.visited,
          products := if addProd then pushFresh s.products url else s.products,
          processed := s.processed }

inductive Reach (maxUrls : Nat) (domain : String) : CrawlState → Prop where
  | seed : Reach maxUrls domain (seedState domain)
  | next (s t : CrawlState) : Reach maxUrls domain s → Step maxUrls s t →
      Reach maxUrls domain t

/-- The run invariant: the pending queue is duplicate-free and inside the
seen-set, visited URLs are seen but no longer pending, each URL was
dispatched at most once, only visited URLs were dispatched, and the budget
bounds the visited count. -/
def Inv (maxUrls : Nat) (s : CrawlState) : Prop :=
  s.frontier.queue.Nodup ∧
  (∀ u ∈ s.frontier.queue, u ∈ s.frontier.seen) ∧
  s.visited.Nodup ∧
  (∀ u ∈ s.visited, u ∈ s.frontier.seen ∧ u ∉ s.frontier.queue) ∧
  s.processed.Nodup ∧
  (∀ u ∈ s.processed, u ∈ s.visited) ∧
  s.visited.length ≤ maxUrls

theorem frontierAdd_inv (f : URLFrontier) (visited : List String) (u : String)
    (h1 : f.queue.Nodup) (h2 : ∀ x ∈ f.queue, x ∈ f.seen)
    (h3 : ∀ x ∈ visited, x ∈ f.seen ∧ x ∉ f.queue) :
    (f.add u).queue.Nodup ∧
      (∀ x ∈ (f.add u).queue, x ∈ (f.add u).seen) ∧
      (∀ x ∈ visited, x ∈ (f.add u).seen ∧ x ∉ (f.add u).queue) := by
  unfold URLFrontier.add
  by_cases hmem : rstripSlash u ∈ f.seen
  · simp only [hmem, if_pos]
    exact ⟨h1, h2, h3⟩
  · simp only [hmem, if_neg, not_false_iff]
    refine ⟨?_, ?_, ?_⟩
    · have hnq : rstripSlash u ∉ f.queue := fun hc => hmem (h2 _ hc)
      simp [List.nodup_append, h1, hnq]
    · intro x hx
      rcases List.mem_append.mp hx with hx | hx
      · exact List.mem_append_left _ (h2 _ hx)
      · exact List.mem_append_right _ hx
    · intro x hx
      obtain ⟨hs, hq⟩ := h3 x hx
      refine ⟨List.mem_append_left _ hs, ?_⟩
      intro hc
      rcases List.mem_append.mp hc with hc | hc
      · exact hq hc
      · rcases List.mem_singleton.mp hc with rfl
        exact hmem hs

theorem foldlAdd_inv (links : List String) (f : URLFrontier)
    (visited : List String)
    (h1 : f.queue.Nodup) (h2 : ∀ x ∈ f.queue, x ∈ f.seen)
    (h3 : ∀ x ∈ visited, x ∈ f.seen ∧ x ∉ f.queue) :
    (links.foldl URLFrontier.add f).queue.Nodup ∧
      (∀ x ∈ (links.foldl URLFrontier.add f).queue,
        x ∈ (links.foldl URLFrontier.add f).seen) ∧
      (∀ x ∈ visited, x ∈ (links.foldl URLFrontier.add f).seen ∧
        x ∉ (links.foldl URLFrontier.add f).queue) := by
  induction links generalizing f with
  | nil => exact ⟨h1, h2, h3⟩
  | cons l rest ih =>
      obtain ⟨g1, g2, g3⟩ := frontierAdd_inv f visited l h1 h2 h3
      exact ih (f.add l) g1 g2 g3

theorem inv_seed (maxUrls : Nat) (domain : String) :
    Inv maxUrls (seedState domain) := by
  unfold Inv seedState URLFrontier.empty URLFrontier.add
  simp

theorem inv_step (maxUrls : Nat) (s t : CrawlState)
    (hs : Inv maxUrls s) (hstep : Step maxUrls s t) : Inv maxUrls t := by
  obtain ⟨hqn, hqs, hvn, hvq, hpn, hpv, hvb⟩ := hs
  cases hstep with
  | dispatch url rest hq hb hv =>
      rw [hq] at hqn hqs hvq
      have hurlseen : url ∈ s.frontier.seen := hqs url (List.mem_cons_self url rest)
      have hurlrest : url ∉ rest := (List.nodup_cons.mp hqn).1
      refine ⟨(List.nodup_cons.mp hqn).2, fun u hu => hqs u (List.mem_cons_of_mem _ hu),
        ?_, ?_, ?_, ?_, ?_⟩
      · simp [List.nodup_append, hvn, hv]
      · intro u hu
        rcases List.mem_append.mp hu with hu | hu
        · obtain ⟨h1, h2⟩ := hvq u hu
          exact ⟨h1, fun hc => h2 (List.mem_cons_of_mem _ hc)⟩
        · rcases List.mem_singleton.mp hu with rfl
          exact ⟨hurlseen, hurlrest⟩
      · have hup : url ∉ s.processed := fun hc => hv (hpv _ hc)
        simp [List.nodup_append, hpn, hup]
      · intro u hu
        rcases List.mem_append.mp hu with hu | hu
        · exact List.mem_append_left _ (hpv u hu)
        · exact List.mem_append_right _ hu
      · simpa using hb
  | skip url rest hq hb hv =>
      rw [hq] at hqn hqs hvq
      refine ⟨(List.nodup_cons.mp hqn).2,
        fun u hu => hqs u (List.mem_cons_of_mem _ hu), hvn, ?_, hpn, hpv, hvb⟩
      intro u hu
      obtain ⟨h1, h2⟩ := hvq u hu
      exact ⟨h1, fun hc => h2 (List.mem_cons_of_mem _ hc)⟩
  | effects url addProd links hp =>
      obtain ⟨g1, g2, g3⟩ := foldlAdd_inv links s.frontier s.visited hqn hqs hvq
      exact ⟨g1, g2, hvn, g3, hpn, hpv, hvb⟩

theorem reach_inv (maxUrls : Nat) (domain : String) (s : CrawlState)
    (h : Reach maxUrls domain s) : Inv maxUrls s := by
  induction h with
  | seed => exact inv_seed maxUrls domain
  | next s t _ hstep ih => exact inv_step maxUrls s t ih hstep

/-! ### Frontier lemmas -/

theorem dropWhile_involutive (p : Char → Bool) (l : List Char) :
    (l.dropWhile p).dropWhile p = l.dropWhile p := by
  induction l with
  | nil => rfl
  | cons c rest ih =>
      by_cases hc : p c
      · simp [List.dropWhile_cons, hc, ih]
      · simp [List.dropWhile_cons, hc]

theorem rstripSlash_idem (s : String) :
    rstripSlash (rstripSlash s) = rstripSlash s := by
  unfold rstripSlash
  simp [List.reverse_reverse, dropWhile_involutive]

theorem map_eq_self_of_fix {α : Type} (g : α → α) (l : List α)
    (h : ∀ x ∈ l, g x = x) : l.map g = l := by
  induction l with
  | nil => rfl
  | cons a rest ih =>
      simp only [List.map_cons, h a (List.mem_cons_self a rest),
        ih (fun x hx => h x (List.mem_cons_of_mem _ hx))]

/-- Invariant of one `URLFrontier.add`: queue entries stay normalized,
duplicate-free and inside the seen-set. -/
theorem add_finv (f : URLFrontier) (u : String)
    (h1 : f.queue.Nodup) (h2 : ∀ x ∈ f.queue, x ∈ f.seen)
    (h3 : ∀ x ∈ f.queue, rstripSlash x = x) :
    (f.add u).queue.Nodup ∧ (∀ x ∈ (f.add u).queue, x ∈ (f.add u).seen) ∧
      (∀ x ∈ (f.add u).queue, rstripSlash x = x) := by
  unfold URLFrontier.add
  by_cases hmem : rstripSlash u ∈ f.seen
  · simp only [hmem, if_pos]
    exact ⟨h1, h2, h3⟩
  · simp only [hmem, if_neg, not_false_iff]
    have hnq : rstripSlash u ∉ f.queue := fun hc => hmem (h2 _ hc)
    refine ⟨by simp [List.nodup_append, h1, hnq], ?_, ?_⟩
    · intro x hx
      rcases List.mem_append.mp hx with hx | hx
      · exact List.mem_append_left _ (h2 _ hx)
      · exact List.mem_append_right _ hx
    · intro x hx
      rcases List.mem_append.mp hx with hx | hx
      · exact h3 _ hx
      · rcases List.mem_singleton.mp hx with rfl
        exact rstripSlash_idem u

theorem foldlAdd_finv (urls : List String) (f : URLFrontier)
    (h1 : f.queue.Nodup) (h2 : ∀ x ∈ f.queue, x ∈ f.seen)
    (h3 : ∀ x ∈ f.queue, rstripSlash x = x) :
    (urls.foldl URLFrontier.add f).queue.Nodup ∧
      (∀ x ∈ (urls.foldl URLFrontier.add f).queue,
        x ∈ (urls.foldl URLFrontier.add f).seen) ∧
      (∀ x ∈ (urls.foldl URLFrontier.add f).queue, rstripSlash x = x) := by
  induction urls generalizing f with
  | nil => exact ⟨h1, h2, h3⟩
  | cons u rest ih =>
      obtain ⟨g1, g2, g3⟩ := add_finv f u h1 h2 h3
      exact ih (f.add u) g1 g2 g3

/-- With pairwise-distinct normalized URLs none of which was seen, `add`
appends exactly the normalized forms in call order. -/
theorem foldlAdd_queue (urls : List String) (f : URLFrontier)
    (hnd : (urls.map rstripSlash).Nodup)
    (hfresh : ∀ u ∈ urls, rstripSlash u ∉ f.seen) :
    (urls.foldl URLFrontier.add f).queue = f.queue ++ urls.map rstripSlash := by
  induction urls generalizing f with
  | nil => simp
  | cons u rest ih =>
      have hu : rstripSlash u ∉ f.seen := hfresh u (List.mem_cons_self u rest)
      have hstep : f.add u =
          { queue := f.queue ++ [rstripSlash u],
            seen := f.seen ++ [rstripSlash u] } := by
        unfold URLFrontier.add
        simp [hu]
      rw [List.foldl_cons, hstep,
        ih _ ((List.nodup_cons.mp (by simpa using hnd)).2) ?_]
      · simp
      · intro x hx
        intro hc
        rcases List.mem_append.mp hc with hc | hc
        · exact hfresh x (List.mem_cons_of_mem _ hx) hc
        · rcases List.mem_singleton.mp hc with hc
          have : rstripSlash u ∈ rest.map rstripSlash :=
            hc ▸ List.mem_map_of_mem rstripSlash hx
          exact (List.nodup_cons.mp (by simpa using hnd)).1 this

theorem drain_eq_queue (f : URLFrontier) : URLFrontier.drain f = f.queue := by
  have key : ∀ (q : List String) (g : URLFrontier), g.queue = q →
      URLFrontier.drain g = q := by
    intro q
    induction q with
    | nil =>
        intro g hg
        rw [URLFrontier.drain.eq_def, hg]
    | cons u rest ih =>
        intro g hg
        rw [URLFrontier.drain.eq_def, hg]
        exact congrArg (u :: ·) (ih { g with queue := rest } rfl)
  exact key f.queue f rfl

/-! ### `process_url` helper lemmas -/

theorem pushFresh_mem_self (l : List String) (u : String) :
    u ∈ pushFresh l u := by
  unfold pushFresh
  by_cases h : u ∈ l
  · rw [if_pos h]
    exact h
  · simp [h]

theorem pushFresh_mem_of (l : List String) (u v : String) (h : v ∈ l) :
    v ∈ pushFresh l u := by
  unfold pushFresh
  by_cases hm : u ∈ l
  · simpa [hm]
  · simp [hm, List.mem_append, h]

theorem enqueueLinks_products (admission : Option String → Bool)
    (links : List (Option String)) (st : CrawlState) :
    (enqueueLinks admission links st).products = st.products := by
  induction links generalizing st with
  | nil => rfl
  | cons l rest ih =>
      unfold enqueueLinks at ih ⊢
      simp only [List.foldl_cons]
      rw [ih]
      by_cases ha : admission l
      · cases l <;> simp [ha, stFrontierAdd]
      · simp [ha]

/-- When the fetch succeeded with status 200 and the generic classifier says
product, the base `process_url` records the URL. -/
theorem base_process_records (extract : Soup → String → List (Option String))
    (linkAdmission : Option String → Bool) (url html : String) (soup : Soup)
    (st : CrawlState)
    (h : ProductIdentifier.is_product_page url html soup = true) :
    url ∈ (Crawler.process_url extract linkAdmission
      (FetchResult.ok 200 html soup) url st).products := by
  unfold Crawler.process_url
  simp only [ne_eq, not_true_eq_false, if_false, reduceIte, h,
    enqueueLinks_products]
  exact pushFresh_mem_self st.products url

/-! ### Claims -/

/-- Claim C1 (amended): for the Virgio and Westside crawlers, whose
`process_url` delegates to the base implementation, every URL fetched with
status 200 that the generic `ProductIdentifier.is_product_page` classifies
as a product is added to the crawler's product-URL set.  (The TataCliq and
Nykaa overrides replace the generic classifier and do not enjoy this — see
the counterexample.) -/
theorem claimC1_amended (uj : String → String → String)
    (domain url html : String) (soup : Soup) (st : CrawlState)
    (h : ProductIdentifier.is_product_page url html soup = true) :
    url ∈ (VirgioCrawler.process_url uj domain (FetchResult.ok 200 html soup)
      url st).products ∧
    url ∈ (WestsideCrawler.process_url uj domain (FetchResult.ok 200 html soup)
      url st).products := by
  constructor
  · unfold VirgioCrawler.process_url
    have hb := base_process_records (Crawler.extract_links uj)
      (Crawler.admission domain) url html soup st h
    by_cases hc : ((strContains url "/collection/" ||
        strContains url "/category/") &&
        reSearch [Tok.lit "-p", Tok.plus Char.isDigit, Tok.eos] url) = true
    · simp only [hc, if_pos]
      exact pushFresh_mem_of _ _ _ hb
    · simpa [hc] using hb
  · unfold WestsideCrawler.process_url
    have hb := base_process_records (WestsideCrawler.extract_links uj domain)
      (WestsideCrawler.admission domain) url html soup st h
    by_cases hc : (WestsideCrawler.westside_product_patterns.any
        (fun p => reSearch p url)) = true
    · simp only [hc, if_pos]
      exact pushFresh_mem_of _ _ _ hb
    · simpa [hc] using hb

/-- Claim C1 witness: a URL matching the generic `/p/` pattern is recorded
by the Virgio crawler. -/
theorem claimC1_witness :
    ProductIdentifier.is_product_page "https://www.virgio.com/p/1" ""
      emptySoup = true ∧
    "https://www.virgio.com/p/1" ∈
      (VirgioCrawler.process_url (fun _ h => h) "https://www.virgio.com/"
        (FetchResult.ok 200 "" emptySoup) "https://www.virgio.com/p/1"
        (seedState "https://www.virgio.com/")).products :=
  ⟨by decide,
   (claimC1_amended (fun _ h => h) "https://www.virgio.com/"
     "https://www.virgio.com/p/1" "" emptySoup
     (seedState "https://www.virgio.com/") (by decide)).1⟩

/-- Claim C1 counterexample: `https://.../item/x` is generically classified
as a product (URL pattern `/item/`), yet neither the TataCliq nor the Nykaa
`process_url` override records it after a successful 200 fetch — these
overrides suppress a generic positive classification. -/
theorem claimC1_counterexample :
    ProductIdentifier.is_product_page "https://www.tatacliq.com/item/x" ""
      emptySoup = true ∧
    "https://www.tatacliq.com/item/x" ∉
      (TatacliqCrawler.process_url (fun _ h => h) "https://www.tatacliq.com/"
        (FetchResult.ok 200 "" emptySoup) "https://www.tatacliq.com/item/x"
        (seedState "https://www.tatacliq.com/")).products ∧
    ProductIdentifier.is_product_page "https://nykaafashion.com/item/x" ""
      emptySoup = true ∧
    "https://nykaafashion.com/item/x" ∉
      (NykaaCrawler.process_url (fun _ h => h) "https://nykaafashion.com/"
        (FetchResult.ok 200 "" emptySoup) "https://nykaafashion.com/item/x"
        (seedState "https://nykaafashion.com/")).products := by
  refine ⟨by decide, by decide, by decide, by decide⟩

/-- Claim C2: over any sequence of `add` calls the frontier queue never
holds two entries with the same normalized URL, and the spec's example
leaves exactly one entry. -/
theorem claimC2 :
    (∀ urls : List String,
      (((urls.foldl URLFrontier.add URLFrontier.empty).queue).map
        rstripSlash).Nodup) ∧
    (["https://x/a/", "https://x/a"].foldl URLFrontier.add
      URLFrontier.empty).queue = ["https://x/a"] := by
  constructor
  · intro urls
    obtain ⟨h1, -, h3⟩ := foldlAdd_finv urls URLFrontier.empty
      (by simp [URLFrontier.empty]) (by simp [URLFrontier.empty])
      (by simp [URLFrontier.empty])
    rw [map_eq_self_of_fix _ _ h3]
    exact h1
  · decide

/-- Claim C3: in every reachable state of a crawl run, each URL has been
dispatched to `process_url` at most once. -/
theorem claimC3 (maxUrls : Nat) (domain : String) (s : CrawlState)
    (h : Reach maxUrls domain s) (url : String) :
    s.processed.count url ≤ 1 := by
  obtain ⟨-, -, -, -, hpn, -, -⟩ := reach_inv maxUrls domain s h
  exact List.nodup_iff_count_le_one.mp hpn url

/-- Claim C3 witness at the seeded state. -/
theorem claimC3_witness :
    (seedState "https://www.westside.com/").processed.count
      "https://www.westside.com" ≤ 1 :=
  claimC3 1000 "https://www.westside.com/" _ Reach.seed
    "https://www.westside.com"

/-- Claim C4: in every reachable state of a crawl run the number of visited
(fetched) URLs never exceeds the `max_urls` budget. -/
theorem claimC4 (maxUrls : Nat) (domain : String) (s : CrawlState)
    (h : Reach maxUrls domain s) : s.visited.length ≤ maxUrls :=
  (reach_inv maxUrls domain s h).2.2.2.2.2.2

/-- Claim C4 witness at the seeded state. -/
theorem claimC4_witness :
    (seedState "https://www.tatacliq.com/").visited.length ≤ 1000 :=
  claimC4 1000 "https://www.tatacliq.com/" _ Reach.seed

/-- Claim C5: the classifier is the plain OR of its three signals, and in
particular markup whose JSON-LD script contains a `"@type"` declaration with
`"Product"` classifies true even with zero content indicators and a URL
matching no product pattern and no product query parameter. -/
theorem claimC5 :
    (∀ (url html : String) (soup : Soup),
        ProductIdentifier.is_product_page url html soup =
          (ProductIdentifier.check_url_pattern url ||
           ProductIdentifier.check_page_content html soup ||
           ProductIdentifier.check_metadata soup)) ∧
    (∀ (url html s : String) (soup : Soup),
        soup.ldJson = some (some s) →
        strContains s "\"@type\"" = true →
        strContains s "\"Product\"" = true →
        ProductIdentifier.indicatorCount html = 0 →
        ProductIdentifier.check_url_path url = false →
        ProductIdentifier.check_query_params url = false →
        ProductIdentifier.is_product_page url html soup = true) := by
  constructor
  · intro url html soup
    unfold ProductIdentifier.is_product_page
    cases h1 : ProductIdentifier.check_url_pattern url <;>
      cases h2 : ProductIdentifier.check_page_content html soup <;>
        cases h3 : ProductIdentifier.check_metadata soup <;> simp
  · intro url html s soup hld hat hprod _hcnt _hpath _hq
    have hmeta : ProductIdentifier.check_metadata soup = true := by
      unfold ProductIdentifier.check_metadata
      rw [hld]
      simp [hat, hprod]
    unfold ProductIdentifier.is_product_page
    by_cases hA : ProductIdentifier.check_url_pattern url <;>
      by_cases hB : ProductIdentifier.check_page_content html soup <;>
        simp [hA, hB, hmeta]

/-- Claim C5 witness: a JSON-LD `"@type": "Product"` block alone classifies
true. -/
theorem claimC5_witness :
    ProductIdentifier.indicatorCount "" = 0 ∧
    ProductIdentifier.check_url_path "https://example.com/about" = false ∧
    ProductIdentifier.check_query_params "https://example.com/about" = false ∧
    ProductIdentifier.is_product_page "https://example.com/about" ""
      { ldJson := some (some "\x7b \"@type\": \"Product\" \x7d"),
        metaTags := [], elems := [] } = true :=
  ⟨by decide, by decide, by decide,
   claimC5.2 "https://example.com/about" ""
     "\x7b \"@type\": \"Product\" \x7d"
     { ldJson := some (some "\x7b \"@type\": \"Product\" \x7d"),
       metaTags := [], elems := [] }
     rfl (by decide) (by decide) (by decide) (by decide) (by decide)⟩

/-- Claim C6: a URL containing an excluded-path substring is rejected by
`NykaaCrawler.should_crawl` even when it also contains a priority-path
substring — exclusions are checked first and take precedence. -/
theorem claimC6 (domain url : String)
    (hprio : NykaaCrawler.priority_paths.any
      (fun p => strContains url p) = true)
    (hexcl : NykaaCrawler.excluded_paths.any
      (fun p => strContains url p) = true) :
    NykaaCrawler.should_crawl domain url = false := by
  unfold NykaaCrawler.should_crawl
  by_cases h0 : (url = "" || !Crawler.should_crawl domain url) = true
  · simp [h0]
  · simp [h0, hexcl]

/-- Claim C6 witness: `/products/cart/` is both a priority and an excluded
match and is rejected. -/
theorem claimC6_witness :
    NykaaCrawler.priority_paths.any
      (fun p => strContains "https://nykaafashion.com/products/cart/1" p) =
        true ∧
    NykaaCrawler.should_crawl "https://nykaafashion.com/"
      "https://nykaafashion.com/products/cart/1" = false :=
  ⟨by decide,
   claimC6 "https://nykaafashion.com/"
     "https://nykaafashion.com/products/cart/1" (by decide) (by decide)⟩

/-- Claim C7: the frontier is FIFO — over adds with pairwise-distinct
normalized URLs, repeated `get` returns exactly the normalized URLs in
insertion order. -/
theorem claimC7 (urls : List String)
    (h : (urls.map rstripSlash).Nodup) :
    URLFrontier.drain (urls.foldl URLFrontier.add URLFrontier.empty) =
      urls.map rstripSlash := by
  rw [drain_eq_queue,
    foldlAdd_queue urls URLFrontier.empty h (by simp [URLFrontier.empty])]
  simp [URLFrontier.empty]

/-- Claim C7 witness on a two-element insertion sequence. -/
theorem claimC7_witness :
    ((["https://x/a", "https://x/b/"].map rstripSlash).Nodup) ∧
    URLFrontier.drain (["https://x/a", "https://x/b/"].foldl URLFrontier.add
        URLFrontier.empty) =
      ["https://x/a", "https://x/b/"].map rstripSlash :=
  ⟨by decide, claimC7 ["https://x/a", "https://x/b/"] (by decide)⟩

/-- Claim C8: a per-URL failure — transport error, raised exception, or a
non-200 status — leaves `process_url` as the identity on the crawl state
(no links enqueued, no classification recorded), and whenever the frontier
is non-empty and the budget is unspent the worker loop can always take a
step, so only exhaustion or the budget ends a run. -/
theorem claimC8 :
    (∀ (extract : Soup → String → List (Option String))
       (linkAdmission : Option String → Bool) (url : String) (st : CrawlState),
        Crawler.process_url extract linkAdmission FetchResult.clientError url st =
          st ∧
        Crawler.process_url extract linkAdmission FetchResult.raised url st = st ∧
        ∀ (status : Nat) (html : String) (soup : Soup), status ≠ 200 →
          Crawler.process_url extract linkAdmission
            (FetchResult.ok status html soup) url st = st) ∧
    (∀ (maxUrls : Nat) (s : CrawlState) (url : String) (rest : List String),
        s.frontier.queue = url :: rest → s.visited.length < maxUrls →
        ∃ t, Step maxUrls s t) := by
  constructor
  · intro extract linkAdmission url st
    refine ⟨rfl, rfl, ?_⟩
    intro status html soup hs
    unfold Crawler.process_url
    simp [hs]
  · intro maxUrls s url rest hq hb
    by_cases hv : url ∈ s.visited
    · exact ⟨_, Step.skip s url rest hq hb hv⟩
    · exact ⟨_, Step.dispatch s url rest hq hb hv⟩

/-- Claim C8 witness: a 404 response changes nothing, and the seeded state
can step. -/
theorem claimC8_witness :
    Crawler.process_url (Crawler.extract_links (fun _ h => h))
        (Crawler.admission "https://www.virgio.com/")
        (FetchResult.ok 404 "" emptySoup) "https://www.virgio.com/x"
        (seedState "https://www.virgio.com/") =
      seedState "https://www.virgio.com/" ∧
    ∃ t, Step 1000 (seedState "https://www.virgio.com/") t :=
  ⟨(claimC8.1 (Crawler.extract_links (fun _ h => h))
      (Crawler.admission "https://www.virgio.com/") "https://www.virgio.com/x"
      (seedState "https://www.virgio.com/")).2.2 404 "" emptySoup (by decide),
   claimC8.2 1000 (seedState "https://www.virgio.com/")
     "https://www.virgio.com" [] (by decide) (by decide)⟩

/-- Claim C9: `NykaaCrawler.should_crawl` is extensionally equal to the same
function with the priority-path loop deleted — the loop never affects the
returned value. -/
theorem claimC9 (domain url : String) :
    NykaaCrawler.should_crawl domain url =
      NykaaCrawler.should_crawl_priority_removed domain url := by
  unfold NykaaCrawler.should_crawl NykaaCrawler.should_crawl_priority_removed
  by_cases h0 : (url = "" || !Crawler.should_crawl domain url) = true
  · simp [h0]
  · by_cases h1 : (NykaaCrawler.excluded_paths.any
        (fun p => strContains url p)) = true
    · simp [h0, h1]
    · by_cases h2 : (NykaaCrawler.priority_paths.any
          (fun p => strContains url p)) = true
      · simp [h0, h1, h2]
      · simp [h0, h1, h2]

/-- Claim C10: the worker's already-visited skip branch is dead — in every
reachable state, every URL still in the frontier queue (in particular the
one `get` returns next) is not in the visited set. -/
theorem claimC10 (maxUrls : Nat) (domain : String) (s : CrawlState)
    (h : Reach maxUrls domain s) (url : String)
    (hq : url ∈ s.frontier.queue) : url ∉ s.visited := by
  intro hv
  obtain ⟨-, -, -, hvq, -, -, -⟩ := reach_inv maxUrls domain s h
  exact (hvq url hv).2 hq

/-- Claim C10 witness at the seeded state. -/
theorem claimC10_witness :
    "https://www.westside.com" ∉
      (seedState "https://www.westside.com/").visited :=
  claimC10 1000 "https://www.westside.com/" _ Reach.seed
    "https://www.westside.com" (by decide)

end ECC
